import Mathlib

/-!
Verification of the DrupalPreprocessBehavior library (drupal-preprocess-behavior.js).

The development shallowly embeds the JavaScript source: JavaScript values that can
appear in settings trees become the inductive type `JVal`, jQuery element queries
become an abstract `Dom` structure, behaviors become the `Behavior` structure, and
the stateful mutation of a behavior object during one attach cycle is threaded
explicitly as a `BState`.  Exceptions are modelled with an `Option String` error
channel carrying the JavaScript string form of the thrown value, since the walker
in the source classifies caught errors by inspecting exactly that string form.
-/

namespace DrupalPreprocess

/-- JavaScript-like values, as they occur in settings objects and in the
`drupalSettings` field of a behavior.  `undefined` stands for the JavaScript
undefined value, which is also what reading an absent property yields. -/
inductive JVal where
  | undefined
  | jbool (b : Bool)
  | jnum (n : Int)
  | jstr (s : String)
  | jobj (fields : List (String × JVal))

/-- The JavaScript typeof operator, restricted to the values of `JVal`. -/
def typeofJ : JVal → String
  | .undefined => "undefined"
  | .jbool _ => "boolean"
  | .jnum _ => "number"
  | .jstr _ => "string"
  | .jobj _ => "object"

/-- Property read `v[k]` on a JavaScript value: on objects, the first binding of
the key (object keys are unique in JavaScript); on every other value, undefined. -/
def jget : JVal → String → JVal
  | .jobj fields, k => (fields.lookup k).getD .undefined
  | _, _ => .undefined

/-- Key lookup on the field list of a settings object; absent keys read as
undefined, exactly like a JavaScript property access. -/
def jlookupKey (fields : List (String × JVal)) (k : String) : JVal :=
  (fields.lookup k).getD .undefined

/-- JavaScript truthiness for `JVal`. -/
def jTruthy : JVal → Bool
  | .undefined => false
  | .jbool b => b
  | .jnum n => n != 0
  | .jstr s => s != ""
  | .jobj _ => true

/-- Write one key of a field list the way a JavaScript property assignment does:
overwrite the binding in place when the key exists, append it otherwise. -/
def setKey (fields : List (String × JVal)) (k : String) (v : JVal) :
    List (String × JVal) :=
  if fields.any (fun p => p.1 = k) then
    fields.map (fun p => if p.1 = k then (k, v) else p)
  else fields ++ [(k, v)]

/-- Shallow `jQuery.extend(target, source)`: copy every field of the source whose
value is not undefined onto the target, last writer wins. -/
def jExtend (target source : List (String × JVal)) : List (String × JVal) :=
  source.foldl
    (fun acc p =>
      match p.2 with
      | .undefined => acc
      | v => setKey acc p.1 v)
    target

/-- Split a character list at every dot, the way the JavaScript string split
method does: the empty string splits to one empty segment, and separators at
either end produce empty segments. -/
def splitDotAux : List Char → List Char → List String
  | [], acc => [String.mk acc.reverse]
  | c :: cs, acc =>
      if c = '.' then String.mk acc.reverse :: splitDotAux cs []
      else splitDotAux cs (c :: acc)

/-- The JavaScript split of a string on the dot character. -/
def splitDot (s : String) : List String :=
  splitDotAux s.data []

/-- The JavaScript expression chain.split applied to the dot character.  When the
chain is not a string it has no split method and a TypeError is thrown; this is
what happens inside getChainedValue when it receives a non-string chain. -/
def jsSplitDot : JVal → Except String (List String)
  | .jstr s => .ok (splitDot s)
  | _ => .error "TypeError: chain.split is not a function"

/-- The segment walk inside getChainedValue: follow each part while the next
property read is defined, otherwise return the boolean false sentinel. -/
def chainWalk : JVal → List String → JVal
  | value, [] => value
  | value, p :: ps =>
      match jget value p with
      | .undefined => .jbool false
      | v => chainWalk v ps

/-- `getChainedValue(root, chain)` from the source: split the chain on dots and
walk the parts; a missing segment yields false, and a non-string chain raises a
TypeError before the walk starts. -/
def getChainedValue (root chain : JVal) : Except String JVal :=
  match jsSplitDot chain with
  | .error e => .error e
  | .ok parts => .ok (chainWalk root parts)

/-- The DOM of one attach cycle, abstracted to its query results.  `query sel` is
the document-wide `jQuery(sel)` match set, and `queryScoped sel elems` is
`jQuery(sel, elems)`, the selector run inside an element set.  `contextQuery sel`
is spec vocabulary only: the result the selector would give when scoped to the
AttachContext of the cycle.  The element loop of the source never consults the
attach context, so no definition below depends on `contextQuery`; it exists so
that claims about context-scoped lookup can be stated and compared. -/
structure Dom where
  query : String → List Nat
  queryScoped : String → List Nat → List Nat
  contextQuery : String → List Nat

/-- One entry of the elements array of a behavior. -/
structure ElementDef where
  name : String
  selector : String
  required : Option Bool
  context : Option String

/-- A registered behavior, per the data model of the library: the preprocess
opt-in flag, the `drupalSettings` value (undefined when the key is absent, a
dotted-path string in documented use), the declared elements, the optional
pre-declared settings object, the attach callback, and whether a detach callback
is present.  The attach callback is abstracted to its outcome: `none` means no
attach function exists, `some none` that it returns normally, and
`some (some e)` that it throws a value whose string form is `e`. -/
structure Behavior where
  preprocess : Bool
  drupalSettings : JVal
  elements : List ElementDef
  settings : Option (List (String × JVal))
  attach : Option (Option String)
  hasDetach : Bool

/-- The per-cycle mutable state the preprocessor installs on the behavior
object: the resolved settings object and the dollar-prefixed element
properties. -/
structure BState where
  settings : List (String × JVal)
  props : List (String × List Nat)

/-- Read a dollar-prefixed element property of the behavior object. -/
def lookupProp (props : List (String × List Nat)) (k : String) : Option (List Nat) :=
  props.lookup k

/-- Assign a dollar-prefixed element property on the behavior object. -/
def setProp (props : List (String × List Nat)) (k : String) (v : List Nat) :
    List (String × List Nat) :=
  if props.any (fun p => p.1 = k) then
    props.map (fun p => if p.1 = k then (k, v) else p)
  else props ++ [(k, v)]

/-- The error tag every message thrown by the preprocessor starts with. -/
def preprocTag : String := "[PREPROCESS] "

/-- The message thrown for a missing required element; `elementName` is the
dollar-prefixed name. -/
def requiredElementMsg (elementName : String) : String :=
  preprocTag ++ ("Required element " ++ (elementName ++ " was not found."))

/-- JavaScript string coercion of a `JVal`, as used when a non-string value is
concatenated into an error message. -/
def jDisplay : JVal → String
  | .undefined => "undefined"
  | .jbool b => if b then "true" else "false"
  | .jnum n => toString n
  | .jstr s => s
  | .jobj _ => "[object Object]"

/-- The message thrown when the resolved settings value is not an object. -/
def notObjectMsg (ds : JVal) : String :=
  preprocTag ++ ("Drupal.settings." ++ (jDisplay ds ++ " is not an object."))

/-- The match set stored for one element entry: when a non-empty context name is
declared and the referenced dollar property is already defined on the behavior,
the selector runs scoped to that property; in every other case it runs
document-wide.  The attach context of the cycle is not consulted. -/
def elementMatches (dom : Dom) (props : List (String × List Nat))
    (el : ElementDef) : List Nat :=
  match el.context with
  | some c =>
      if c ≠ "" then
        match lookupProp props ("$" ++ c) with
        | some ctxElems => dom.queryScoped el.selector ctxElems
        | none => dom.query el.selector
      else dom.query el.selector
  | none => dom.query el.selector

/-- The element loop of the preprocessor: store each match set on the behavior,
then throw when a required element matched nothing.  Returns the properties as
mutated so far together with the thrown message, if any. -/
def processElements (dom : Dom) :
    List (String × List Nat) → List ElementDef →
      List (String × List Nat) × Option String
  | props, [] => (props, none)
  | props, el :: rest =>
      if el.required.getD false = true ∧ (elementMatches dom props el).length = 0 then
        (setProp props ("$" ++ el.name) (elementMatches dom props el),
         some (requiredElementMsg ("$" ++ el.name)))
      else
        processElements dom
          (setProp props ("$" ++ el.name) (elementMatches dom props el)) rest

/-- The settings initialization of the preprocessor: a missing pre-declared
settings object is treated as empty, and a fresh object holding the built-in
debug default (true in the source) is extended with the pre-declared
settings. -/
def resolvedBase (b : Behavior) : List (String × JVal) :=
  jExtend [("debug", JVal.jbool true)] (b.settings.getD [])

/-- `Drupal.preprocessBehavior(behavior, context, settings)`.  The attach
context parameter of the source is unused by the body, so it is omitted here;
`props0` is the dollar-property state of the behavior object on entry (empty for
a fresh behavior).  Returns the behavior state as mutated when the function
returns or throws, together with the thrown message, if any.  Note that the
settings branch tests `typeof behavior.drupalSettings` against the string
"object", so for the documented dotted-path string it is skipped entirely, and
when it is entered getChainedValue receives a non-string chain and raises a
TypeError before its walk begins. -/
def preprocessBehavior (dom : Dom) (b : Behavior) (ambientSettings : JVal)
    (props0 : List (String × List Nat)) : BState × Option String :=
  if typeofJ b.drupalSettings = "object" then
    match getChainedValue ambientSettings b.drupalSettings with
    | .error e => (⟨resolvedBase b, props0⟩, some e)
    | .ok inlineSettings =>
        if typeofJ inlineSettings = "object" then
          (⟨(match inlineSettings with
              | .jobj fs => jExtend (resolvedBase b) fs
              | _ => resolvedBase b),
            (processElements dom props0 b.elements).1⟩,
           (processElements dom props0 b.elements).2)
        else
          (⟨resolvedBase b, props0⟩, some (notObjectMsg b.drupalSettings))
  else
    (⟨resolvedBase b, (processElements dom props0 b.elements).1⟩,
     (processElements dom props0 b.elements).2)

/-- The check `str.indexOf` of the preprocessor tag `=== 0` used by the walker
to classify a caught error, modelled as a character-level starts-with test on
the string form of the thrown value. -/
def listStartsWith : List Char → List Char → Bool
  | [], _ => true
  | _ :: _, [] => false
  | a :: as, b :: bs => a = b && listStartsWith as bs

/-- Whether the walker classifies a caught error as a preprocessing failure:
its string form starts with the tag. -/
def isPreprocessErr (s : String) : Bool :=
  listStartsWith "[PREPROCESS]".data s.data

/-- The console warning emitted for a suppressed preprocessing failure. -/
def warnMsg (name msg : String) : String :=
  "Drupal Behavior \x27" ++ name ++ "\x27 was not attached. " ++ msg

/-- What one attach cycle did to one behavior. -/
structure CycleOutcome where
  invoked : Bool
  state : BState
  warned : Option String
  thrown : Option String

/-- `Drupal._attachBehavior(behavior, name, context, settings)`: for an opted-in
behavior, run the preprocessor and then the attach callback inside a try block;
a caught error whose string form starts with the preprocessor tag is suppressed
(with a console warning when the resolved debug setting is truthy) and every
other caught error is rethrown.  A behavior that did not opt in has its attach
callback invoked directly, outside any try block.  `invoked` records whether the
attach callback was called, `state` the behavior-object state afterwards (the
behavior enters the cycle fresh, with no dollar properties), `warned` the
console warning, and `thrown` the error propagating to the caller.  The catch
clause of the source is `attachOutcomeFor`: classify the caught error by its
string form, suppressing and possibly warning on the preprocessor tag,
rethrowing otherwise. -/
def attachOutcomeFor (name : String) (st : BState) (invoked : Bool)
    (err : String) : CycleOutcome :=
  if isPreprocessErr err then
    { invoked := invoked, state := st,
      warned :=
        if jTruthy (jlookupKey st.settings "debug") then some (warnMsg name err)
        else none,
      thrown := none }
  else
    { invoked := invoked, state := st, warned := none, thrown := some err }

/-- The per-behavior step of the walk, `Drupal._attachBehavior` itself: run the
preprocessor and the attach callback inside the try block when the behavior
opted in, handing a caught error to `attachOutcomeFor`; call attach directly
otherwise. -/
def attachStep (dom : Dom) (b : Behavior) (name : String) (ambientSettings : JVal) :
    CycleOutcome :=
  if b.preprocess then
    match (preprocessBehavior dom b ambientSettings []).2 with
    | some e => attachOutcomeFor name (preprocessBehavior dom b ambientSettings []).1 false e
    | none =>
        match b.attach.getD none with
        | some e => attachOutcomeFor name (preprocessBehavior dom b ambientSettings []).1 true e
        | none =>
            { invoked := true, state := (preprocessBehavior dom b ambientSettings []).1,
              warned := none, thrown := none }
  else
    { invoked := true, state := ⟨b.settings.getD [], []⟩, warned := none,
      thrown := b.attach.getD none }

/-- `Drupal.attachBehaviors(context, settings)`: walk the registry in order and
run `Drupal._attachBehavior` on every entry whose attach member is a function.
The jQuery each loop does not catch callback errors, so an error rethrown by one
step stops the walk and propagates.  Returns the outcomes of the processed
behaviors in order and the error escaping the walk, if any. -/
def attachAll (dom : Dom) (registry : List (String × Behavior))
    (ambientSettings : JVal) : List (String × CycleOutcome) × Option String :=
  match registry with
  | [] => ([], none)
  | (name, b) :: rest =>
      if b.attach.isSome then
        match (attachStep dom b name ambientSettings).thrown with
        | some e => ([(name, attachStep dom b name ambientSettings)], some e)
        | none =>
            ((name, attachStep dom b name ambientSettings)
                :: (attachAll dom rest ambientSettings).1,
             (attachAll dom rest ambientSettings).2)
      else attachAll dom rest ambientSettings

/-- Registry lookup by behavior name. -/
def lookupBehavior (registry : List (String × Behavior)) (name : String) :
    Option Behavior :=
  registry.lookup name

/-- `Drupal.attachBehavior(name, context, settings)`: when the named registry
entry exists and its attach member is a function, run the same per-behavior step
as the full walk; in every other case the call silently does nothing — the
source has no error path here, which the return type makes plain. -/
def attachBehaviorOne (dom : Dom) (registry : List (String × Behavior))
    (name : String) (ambientSettings : JVal) : Option CycleOutcome :=
  match lookupBehavior registry name with
  | some b =>
      if b.attach.isSome then some (attachStep dom b name ambientSettings)
      else none
  | none => none

/-- What one detach call did. -/
structure DetachOutcome where
  routineInvoked : Bool
  thrown : Option String

/-- `Drupal.detachBehavior(name, context, settings, trigger)`: the trigger
defaults to the unload designation, and when the named behavior exists and has a
detach function the source executes `this.detach(context, settings, trigger)`.
Because the function is invoked as a method of the Drupal object, `this` is
Drupal, which has no detach member, so that statement raises a TypeError and the
behavior detach routine itself is never reached; without a detach function the
call is a no-op. -/
def detachBehaviorOne (registry : List (String × Behavior)) (name : String)
    (trigger : Option String) : DetachOutcome :=
  let _resolvedTrigger := trigger.getD "unload"
  match lookupBehavior registry name with
  | some b =>
      if b.hasDetach then
        { routineInvoked := false,
          thrown := some "TypeError: this.detach is not a function" }
      else { routineInvoked := false, thrown := none }
  | none => { routineInvoked := false, thrown := none }

/-- Whether a value is the JavaScript undefined value. -/
def isUndefined : JVal → Bool
  | .undefined => true
  | _ => false

/-- A selector that matches nothing at all in the current document: the
document-wide query is empty and so is the query inside any element set.  This
is the premise "the selector matches zero nodes" of the requirement claims. -/
def selectorMatchesNothing (dom : Dom) (sel : String) : Prop :=
  dom.query sel = [] ∧ ∀ ctxElems, dom.queryScoped sel ctxElems = []

/-- The spec data model for the settings path: the `drupalSettings` member is
either absent or a dotted-path string. -/
def specSettingsPath (b : Behavior) : Prop :=
  b.drupalSettings = JVal.undefined ∨ ∃ p, b.drupalSettings = JVal.jstr p

/-- A fixture DOM in which no selector matches anything. -/
def emptyDom : Dom := ⟨fun _ => [], fun _ _ => [], fun _ => []⟩

/-- A fixture DOM whose document contains one node matched by the login
selector, while the attach context of the cycle contains no match for any
selector. -/
def loginDom : Dom :=
  ⟨fun s => if s = "#user-login-form" then [1] else [], fun _ _ => [], fun _ => []⟩

/-- An empty ambient settings tree. -/
def emptySettings : JVal := .jobj []

/-- The ambient settings tree of the README scenario:
myModule.myBehaviorSettings.staticValue is the string Chris. -/
def chrisSettings : JVal :=
  .jobj [("myModule", .jobj [("myBehaviorSettings",
    .jobj [("staticValue", .jstr "Chris")])])]

/-- An ambient settings tree in which the path a.b resolves to the scalar 5. -/
def scalarSettings : JVal := .jobj [("a", .jobj [("b", .jnum 5)])]

/-- An ambient settings tree in which a.b.c is a mapping and a.b.z is absent. -/
def deepSettings : JVal :=
  .jobj [("a", .jobj [("b", .jobj [("c", .jobj [("x", .jnum 1)])])])]

/-- A behavior following the README scenario: opted in, settings path the
dotted string myModule.myBehaviorSettings, no declared elements. -/
def pathBehavior : Behavior :=
  { preprocess := true, drupalSettings := .jstr "myModule.myBehaviorSettings",
    elements := [], settings := none, attach := some none, hasDetach := false }

/-- A behavior whose settings path resolves to the scalar 5 in
`scalarSettings`. -/
def scalarPathBehavior : Behavior :=
  { preprocess := true, drupalSettings := .jstr "a.b",
    elements := [], settings := none, attach := some none, hasDetach := false }

/-- A behavior whose settings path a.b.z does not resolve in
`deepSettings`. -/
def notFoundPathBehavior : Behavior :=
  { preprocess := true, drupalSettings := .jstr "a.b.z",
    elements := [], settings := none, attach := some none, hasDetach := false }

/-- A behavior whose attach callback throws a string starting with the
preprocessor tag, although the error does not originate in the preprocessor. -/
def taggedThrowBehavior : Behavior :=
  { preprocess := true, drupalSettings := .undefined, elements := [], settings := none,
    attach := some (some "[PREPROCESS] fake failure thrown by attach"),
    hasDetach := false }

/-- A behavior whose attach callback throws an ordinary error. -/
def plainThrowBehavior : Behavior :=
  { preprocess := true, drupalSettings := .undefined, elements := [], settings := none,
    attach := some (some "Error: attach blew up"), hasDetach := false }

/-- A behavior declaring one required login-form element and nothing else. -/
def loginBehavior : Behavior :=
  { preprocess := true, drupalSettings := .undefined,
    elements := [⟨"loginForm", "#user-login-form", some true, none⟩],
    settings := none, attach := some none, hasDetach := false }

/-- A minimal opted-in behavior with no declarations at all. -/
def plainBehavior : Behavior :=
  { preprocess := true, drupalSettings := .undefined, elements := [], settings := none,
    attach := some none, hasDetach := false }

/-- A registry entry with no attach function. -/
def noAttachBehavior : Behavior :=
  { preprocess := true, drupalSettings := .undefined, elements := [], settings := none,
    attach := none, hasDetach := false }

/-- A behavior that pre-declares one setting of its own. -/
def declaredSettingsBehavior : Behavior :=
  { preprocess := true, drupalSettings := .undefined, elements := [],
    settings := some [("color", JVal.jstr "red")], attach := some none,
    hasDetach := false }

/-- A behavior that defines a detach routine. -/
def detachingBehavior : Behavior :=
  { preprocess := false, drupalSettings := .undefined, elements := [], settings := none,
    attach := some none, hasDetach := true }

/-- A behavior without a detach routine. -/
def nonDetachingBehavior : Behavior :=
  { preprocess := false, drupalSettings := .undefined, elements := [], settings := none,
    attach := some none, hasDetach := false }

/-- A schematic behavior declaring a required element `na` with selector `sa`
and a second element `nb` with selector `sb` scoped (via the context member) to
the earlier element — the backward-reference shape. -/
def scopedPairBehavior (na sa nb sb : String) : Behavior :=
  { preprocess := true, drupalSettings := .undefined,
    elements := [⟨na, sa, some true, none⟩, ⟨nb, sb, some false, some na⟩],
    settings := none, attach := some none, hasDetach := false }

/-- A schematic behavior whose single element names a context `nc` that no
earlier element declared — the forward-reference shape. -/
def forwardRefBehavior (nx sx nc : String) : Behavior :=
  { preprocess := true, drupalSettings := .undefined,
    elements := [⟨nx, sx, some false, some nc⟩],
    settings := none, attach := some none, hasDetach := false }

theorem lookup_pair_cons {β : Type} (a : String × β) (ts : List (String × β))
    (k : String) :
    ((a :: ts).lookup k) = if k = a.1 then some a.2 else ts.lookup k := by
  obtain ⟨a1, a2⟩ := a
  by_cases h : k = a1
  · simp [List.lookup_cons, h]
  · have hb : (k == a1) = false := beq_eq_false_iff_ne.mpr h
    simp [List.lookup_cons, hb, h]

theorem lookup_map_ne {β : Type} (t : List (String × β)) (k q : String) (v : β)
    (hk : k ≠ q) :
    ((t.map (fun p => if p.1 = q then (q, v) else p)).lookup k) = t.lookup k := by
  induction t with
  | nil => rfl
  | cons a ts ih =>
      by_cases ha : a.1 = q
      · rw [List.map_cons, if_pos ha, lookup_pair_cons, lookup_pair_cons,
          if_neg hk, if_neg (ha ▸ hk), ih]
      · rw [List.map_cons, if_neg ha, lookup_pair_cons, lookup_pair_cons, ih]

theorem lookup_map_self {β : Type} (t : List (String × β)) (q : String) (v : β)
    (h : t.any (fun p => p.1 = q) = true) :
    ((t.map (fun p => if p.1 = q then (q, v) else p)).lookup q) = some v := by
  induction t with
  | nil => simp at h
  | cons a ts ih =>
      by_cases ha : a.1 = q
      · rw [List.map_cons, if_pos ha, lookup_pair_cons, if_pos rfl]
      · rw [List.map_cons, if_neg ha, lookup_pair_cons,
          if_neg (fun hq => ha hq.symm)]
        refine ih ?_
        simpa [ha] using h

theorem lookup_none_of_not_any {β : Type} (t : List (String × β)) (q : String)
    (h : t.any (fun p => p.1 = q) = false) :
    t.lookup q = none := by
  induction t with
  | nil => rfl
  | cons a ts ih =>
      simp only [List.any_cons, Bool.or_eq_false_iff, decide_eq_false_iff_not] at h
      rw [lookup_pair_cons, if_neg (fun hq => h.1 hq.symm)]
      exact ih (by simpa using h.2)

theorem lookup_append_pair_self {β : Type} (t : List (String × β)) (q : String)
    (v : β) (h : t.lookup q = none) :
    ((t ++ [(q, v)]).lookup q) = some v := by
  induction t with
  | nil => simp [lookup_pair_cons]
  | cons a ts ih =>
      rw [lookup_pair_cons] at h
      by_cases ha : q = a.1
      · rw [if_pos ha] at h; cases h
      · rw [if_neg ha] at h
        rw [List.cons_append, lookup_pair_cons, if_neg ha]
        exact ih h

theorem lookup_append_pair_ne {β : Type} (t : List (String × β)) (k q : String)
    (v : β) (hk : k ≠ q) :
    ((t ++ [(q, v)]).lookup k) = t.lookup k := by
  induction t with
  | nil => simp [lookup_pair_cons, hk]
  | cons a ts ih =>
      rw [List.cons_append, lookup_pair_cons, lookup_pair_cons, ih]

theorem setKey_lookup (t : List (String × JVal)) (q : String) (v : JVal)
    (k : String) :
    ((setKey t q v).lookup k) = if k = q then some v else t.lookup k := by
  unfold setKey
  by_cases hany : t.any (fun p => p.1 = q) = true
  · rw [if_pos hany]
    by_cases hk : k = q
    · subst hk; rw [if_pos rfl, lookup_map_self t k v hany]
    · rw [if_neg hk, lookup_map_ne t k q v hk]
  · rw [if_neg hany]
    by_cases hk : k = q
    · subst hk
      rw [if_pos rfl,
        lookup_append_pair_self t k v
          (lookup_none_of_not_any t k (Bool.not_eq_true _ ▸ hany))]
    · rw [if_neg hk, lookup_append_pair_ne t k q v hk]

theorem jlookupKey_setKey (t : List (String × JVal)) (q : String) (v : JVal)
    (k : String) :
    jlookupKey (setKey t q v) k = if k = q then v else jlookupKey t k := by
  unfold jlookupKey
  rw [setKey_lookup]
  by_cases hk : k = q <;> simp [hk]

theorem setProp_lookup (t : List (String × List Nat)) (q : String) (v : List Nat)
    (k : String) :
    lookupProp (setProp t q v) k = if k = q then some v else lookupProp t k := by
  unfold lookupProp setProp
  by_cases hany : t.any (fun p => p.1 = q) = true
  · rw [if_pos hany]
    by_cases hk : k = q
    · subst hk; rw [if_pos rfl, lookup_map_self t k v hany]
    · rw [if_neg hk, lookup_map_ne t k q v hk]
  · rw [if_neg hany]
    by_cases hk : k = q
    · subst hk
      rw [if_pos rfl,
        lookup_append_pair_self t k v
          (lookup_none_of_not_any t k (Bool.not_eq_true _ ▸ hany))]
    · rw [if_neg hk, lookup_append_pair_ne t k q v hk]

theorem jlookupKey_cons (a : String × JVal) (ts : List (String × JVal))
    (k : String) :
    jlookupKey (a :: ts) k = if k = a.1 then a.2 else jlookupKey ts k := by
  unfold jlookupKey
  rw [lookup_pair_cons]
  by_cases hk : k = a.1 <;> simp [hk]

theorem jExtend_cons (t : List (String × JVal)) (p : String × JVal)
    (ps : List (String × JVal)) :
    jExtend t (p :: ps) =
      jExtend (match p.2 with | .undefined => t | v => setKey t p.1 v) ps := rfl

theorem isUndef_jExtend (t s : List (String × JVal)) (k : String)
    (h : isUndefined (jlookupKey t k) = false) :
    isUndefined (jlookupKey (jExtend t s) k) = false := by
  induction s generalizing t with
  | nil => exact h
  | cons p ps ih =>
      obtain ⟨pk, pv⟩ := p
      rw [jExtend_cons]
      cases pv with
      | undefined => exact ih t h
      | jbool b =>
          refine ih _ ?_
          rw [jlookupKey_setKey]
          by_cases hk : k = pk
          · rw [if_pos hk]; rfl
          · rw [if_neg hk]; exact h
      | jnum n =>
          refine ih _ ?_
          rw [jlookupKey_setKey]
          by_cases hk : k = pk
          · rw [if_pos hk]; rfl
          · rw [if_neg hk]; exact h
      | jstr s2 =>
          refine ih _ ?_
          rw [jlookupKey_setKey]
          by_cases hk : k = pk
          · rw [if_pos hk]; rfl
          · rw [if_neg hk]; exact h
      | jobj fs =>
          refine ih _ ?_
          rw [jlookupKey_setKey]
          by_cases hk : k = pk
          · rw [if_pos hk]; rfl
          · rw [if_neg hk]; exact h

theorem jlookupKey_jExtend_not_mem (t s : List (String × JVal)) (k : String)
    (h : k ∉ s.map Prod.fst) :
    jlookupKey (jExtend t s) k = jlookupKey t k := by
  induction s generalizing t with
  | nil => rfl
  | cons p ps ih =>
      obtain ⟨pk, pv⟩ := p
      simp only [List.map_cons, List.mem_cons, not_or] at h
      rw [jExtend_cons]
      cases pv with
      | undefined => exact ih t h.2
      | jbool b => rw [ih _ h.2, jlookupKey_setKey, if_neg h.1]
      | jnum n => rw [ih _ h.2, jlookupKey_setKey, if_neg h.1]
      | jstr s2 => rw [ih _ h.2, jlookupKey_setKey, if_neg h.1]
      | jobj fs => rw [ih _ h.2, jlookupKey_setKey, if_neg h.1]

theorem jlookupKey_jExtend_mem (t s : List (String × JVal)) (k : String)
    (hnd : (s.map Prod.fst).Nodup)
    (h : isUndefined (jlookupKey s k) = false) :
    jlookupKey (jExtend t s) k = jlookupKey s k := by
  induction s generalizing t with
  | nil => simp [jlookupKey, isUndefined] at h
  | cons p ps ih =>
      obtain ⟨pk, pv⟩ := p
      rw [List.map_cons, List.nodup_cons] at hnd
      rw [jlookupKey_cons] at h ⊢
      by_cases hk : k = pk
      · rw [if_pos hk] at h ⊢
        cases pv with
        | undefined => cases h
        | jbool b =>
            rw [jExtend_cons, jlookupKey_jExtend_not_mem _ _ _ (hk ▸ hnd.1),
              jlookupKey_setKey, if_pos hk]
        | jnum n =>
            rw [jExtend_cons, jlookupKey_jExtend_not_mem _ _ _ (hk ▸ hnd.1),
              jlookupKey_setKey, if_pos hk]
        | jstr s2 =>
            rw [jExtend_cons, jlookupKey_jExtend_not_mem _ _ _ (hk ▸ hnd.1),
              jlookupKey_setKey, if_pos hk]
        | jobj fs =>
            rw [jExtend_cons, jlookupKey_jExtend_not_mem _ _ _ (hk ▸ hnd.1),
              jlookupKey_setKey, if_pos hk]
      · rw [if_neg hk] at h ⊢
        rw [jExtend_cons]
        cases pv with
        | undefined => exact ih _ hnd.2 h
        | jbool b => exact ih _ hnd.2 h
        | jnum n => exact ih _ hnd.2 h
        | jstr s2 => exact ih _ hnd.2 h
        | jobj fs => exact ih _ hnd.2 h

theorem listStartsWith_append (l m : List Char) :
    listStartsWith l (l ++ m) = true := by
  induction l with
  | nil => rfl
  | cons a as ih => simp [listStartsWith, ih]

theorem isPreprocessErr_tagged (s : String) :
    isPreprocessErr (preprocTag ++ s) = true := by
  obtain ⟨cs⟩ := s
  have h : (preprocTag ++ String.mk cs).data = "[PREPROCESS]".data ++ (' ' :: cs) := rfl
  unfold isPreprocessErr
  rw [h]
  exact listStartsWith_append _ _

theorem elementMatches_nothing (dom : Dom) (props : List (String × List Nat))
    (el : ElementDef) (h : selectorMatchesNothing dom el.selector) :
    elementMatches dom props el = [] := by
  cases hctx : el.context with
  | none => simp only [elementMatches, hctx]; exact h.1
  | some c =>
      simp only [elementMatches, hctx]
      by_cases hc : c ≠ ""
      · rw [if_pos hc]
        cases lookupProp props ("$" ++ c) with
        | none => exact h.1
        | some ctxElems => exact h.2 ctxElems
      · rw [if_neg hc]; exact h.1

theorem processElements_required_missing (dom : Dom) (elems : List ElementDef) :
    ∀ props : List (String × List Nat),
      (∃ el ∈ elems, el.required.getD false = true ∧
          selectorMatchesNothing dom el.selector) →
      ∃ el ∈ elems, el.required.getD false = true ∧
        (processElements dom props elems).2 =
          some (requiredElementMsg ("$" ++ el.name)) := by
  induction elems with
  | nil =>
      intro props h
      obtain ⟨el, hmem, _⟩ := h
      simp at hmem
  | cons e rest ih =>
      intro props h
      by_cases hcond :
          (e.required.getD false = true ∧ (elementMatches dom props e).length = 0)
      · refine ⟨e, List.mem_cons_self e rest, hcond.1, ?_⟩
        show (processElements dom props (e :: rest)).2 = _
        rw [processElements, if_pos hcond]
      · obtain ⟨el, hmem, hreq, hsel⟩ := h
        rcases List.mem_cons.mp hmem with heq | hmem2
        · subst heq
          exact absurd
            ⟨hreq, by rw [elementMatches_nothing dom props el hsel]; rfl⟩ hcond
        · obtain ⟨el2, hm2, hr2, hp2⟩ :=
            ih (setProp props ("$" ++ e.name) (elementMatches dom props e))
              ⟨el, hmem2, hreq, hsel⟩
          refine ⟨el2, List.mem_cons_of_mem _ hm2, hr2, ?_⟩
          rw [processElements, if_neg hcond]
          exact hp2

theorem preprocessBehavior_not_object (dom : Dom) (b : Behavior) (amb : JVal)
    (props0 : List (String × List Nat))
    (hds : typeofJ b.drupalSettings ≠ "object") :
    preprocessBehavior dom b amb props0 =
      (⟨resolvedBase b, (processElements dom props0 b.elements).1⟩,
       (processElements dom props0 b.elements).2) := by
  unfold preprocessBehavior
  rw [if_neg hds]

theorem isPreprocessErr_required (x : String) :
    isPreprocessErr (requiredElementMsg x) = true :=
  isPreprocessErr_tagged _

theorem isPreprocessErr_notObject (ds : JVal) :
    isPreprocessErr (notObjectMsg ds) = true :=
  isPreprocessErr_tagged _

theorem attachOutcomeFor_tagged (name : String) (st : BState) (inv : Bool)
    (e : String) (htag : isPreprocessErr e = true) :
    (attachOutcomeFor name st inv e).invoked = inv ∧
    (attachOutcomeFor name st inv e).thrown = none := by
  unfold attachOutcomeFor
  rw [if_pos htag]
  exact ⟨rfl, rfl⟩

theorem attachOutcomeFor_untagged (name : String) (st : BState) (inv : Bool)
    (e : String) (hne : isPreprocessErr e = false) :
    (attachOutcomeFor name st inv e).invoked = inv ∧
    (attachOutcomeFor name st inv e).thrown = some e := by
  unfold attachOutcomeFor
  rw [if_neg (by rw [hne]; exact Bool.false_ne_true)]
  exact ⟨rfl, rfl⟩

theorem attachStep_preprocess_err (dom : Dom) (b : Behavior) (name : String)
    (amb : JVal) (e : String) (hpre : b.preprocess = true)
    (he : (preprocessBehavior dom b amb []).2 = some e) :
    attachStep dom b name amb =
      attachOutcomeFor name (preprocessBehavior dom b amb []).1 false e := by
  unfold attachStep
  rw [if_pos hpre, he]

theorem attachStep_ok_attach_throws (dom : Dom) (b : Behavior) (name : String)
    (amb : JVal) (e : String) (hpre : b.preprocess = true)
    (hok : (preprocessBehavior dom b amb []).2 = none)
    (hat : b.attach = some (some e)) :
    attachStep dom b name amb =
      attachOutcomeFor name (preprocessBehavior dom b amb []).1 true e := by
  unfold attachStep
  rw [if_pos hpre, hok]
  have hr : b.attach.getD none = some e := by rw [hat]; rfl
  rw [hr]

theorem attachStep_ok_attach_returns (dom : Dom) (b : Behavior) (name : String)
    (amb : JVal) (hpre : b.preprocess = true)
    (hok : (preprocessBehavior dom b amb []).2 = none)
    (hat : b.attach = some none) :
    attachStep dom b name amb =
      { invoked := true, state := (preprocessBehavior dom b amb []).1,
        warned := none, thrown := none } := by
  unfold attachStep
  rw [if_pos hpre, hok]
  have hr : b.attach.getD none = none := by rw [hat]; rfl
  rw [hr]

theorem attachAll_cons_ok (dom : Dom) (name : String) (b : Behavior)
    (rest : List (String × Behavior)) (amb : JVal)
    (hatt : b.attach.isSome = true)
    (hth : (attachStep dom b name amb).thrown = none) :
    attachAll dom ((name, b) :: rest) amb =
      ((name, attachStep dom b name amb) :: (attachAll dom rest amb).1,
       (attachAll dom rest amb).2) := by
  conv_lhs => rw [attachAll]
  rw [if_pos hatt, hth]

theorem elementMatches_ctxfree (dom domAlt : Dom)
    (hq : domAlt.query = dom.query) (hs : domAlt.queryScoped = dom.queryScoped)
    (props : List (String × List Nat)) (el : ElementDef) :
    elementMatches domAlt props el = elementMatches dom props el := by
  simp only [elementMatches, hq, hs]

theorem processElements_ctxfree (dom domAlt : Dom)
    (hq : domAlt.query = dom.query) (hs : domAlt.queryScoped = dom.queryScoped)
    (elems : List ElementDef) :
    ∀ props, processElements domAlt props elems = processElements dom props elems := by
  induction elems with
  | nil => intro props; rfl
  | cons e rest ih =>
      intro props
      simp only [processElements, elementMatches_ctxfree dom domAlt hq hs, ih]

theorem preprocessBehavior_ctxfree (dom domAlt : Dom)
    (hq : domAlt.query = dom.query) (hs : domAlt.queryScoped = dom.queryScoped)
    (b : Behavior) (amb : JVal) (props0 : List (String × List Nat)) :
    preprocessBehavior domAlt b amb props0 = preprocessBehavior dom b amb props0 := by
  simp only [preprocessBehavior, processElements_ctxfree dom domAlt hq hs]

/-- C10: after every call to the preprocessor — including every call that exits
with a failure — the settings object installed on the behavior is defined and
holds a debug key, because the settings initialization completes before any
failure point; the read of settings.debug in the walker failure handler
therefore never reads an unset settings object. -/
theorem preprocess_settings_debug_defined (dom : Dom) (b : Behavior) (amb : JVal)
    (props0 : List (String × List Nat)) :
    isUndefined (jlookupKey (preprocessBehavior dom b amb props0).1.settings "debug")
      = false := by
  have hbase : isUndefined (jlookupKey (resolvedBase b) "debug") = false := by
    unfold resolvedBase
    exact isUndef_jExtend _ _ _ rfl
  unfold preprocessBehavior
  by_cases hds : typeofJ b.drupalSettings = "object"
  · rw [if_pos hds]
    cases hg : getChainedValue amb b.drupalSettings with
    | error e => exact hbase
    | ok inl =>
        dsimp only
        by_cases hio : typeofJ inl = "object"
        · rw [if_pos hio]
          cases inl with
          | undefined => exact hbase
          | jbool bb => exact hbase
          | jnum n => exact hbase
          | jstr s => exact hbase
          | jobj fs => exact isUndef_jExtend _ _ _ hbase
        · rw [if_neg hio]
          exact hbase
  · rw [if_neg hds]
    exact hbase

/-- C2: the claim says a dotted-string settings path that resolves to a mapping
is merged into the resolved settings.  The code checks typeof drupalSettings
against the string object, so the documented dotted-string path never enters
the merge branch: in the README scenario the path resolves to the mapping
holding staticValue Chris, yet after preprocessing staticValue is absent and
only the debug default is present.  This contradicts the autoload feature the
source file itself documents, so it is a code bug at this input. -/
theorem settings_path_string_never_merged :
    getChainedValue chrisSettings (JVal.jstr "myModule.myBehaviorSettings")
      = .ok (.jobj [("staticValue", .jstr "Chris")]) ∧
    pathBehavior.drupalSettings = JVal.jstr "myModule.myBehaviorSettings" ∧
    (preprocessBehavior emptyDom pathBehavior chrisSettings []).2 = none ∧
    jlookupKey (preprocessBehavior emptyDom pathBehavior chrisSettings []).1.settings
      "staticValue" = JVal.undefined ∧
    jlookupKey (preprocessBehavior emptyDom pathBehavior chrisSettings []).1.settings
      "debug" = JVal.jbool true :=
  ⟨rfl, rfl, rfl, rfl, rfl⟩

/-- C5: the claim says a settings path resolving to a scalar raises a fatal
tagged preprocessing failure and the main routine is skipped.  On the code the
path a.b resolves to the scalar 5, yet preprocessing raises nothing and the
attach callback is invoked, because the dotted-string path never enters the
merge branch (same typeof slip as in the settings-merge claim). -/
theorem scalar_settings_path_not_fatal :
    getChainedValue scalarSettings (JVal.jstr "a.b") = .ok (.jnum 5) ∧
    (preprocessBehavior emptyDom scalarPathBehavior scalarSettings []).2 = none ∧
    (attachStep emptyDom scalarPathBehavior "myBehavior" scalarSettings).invoked
      = true ∧
    (attachStep emptyDom scalarPathBehavior "myBehavior" scalarSettings).thrown
      = none :=
  ⟨rfl, rfl, rfl, rfl⟩

/-- C9: the claim says the single-behavior detach invokes the behavior detach
routine (trigger defaulting to unload) and is a no-op without one.  In the code
the guarded call is this.detach with this being the Drupal object, which has no
detach member: for a behavior that does define a detach routine the call raises
a TypeError and the routine itself is never invoked, contradicting the stated
purpose of Drupal.detachBehavior in the file itself.  The no-op half does hold. -/
theorem detach_routine_never_invoked :
    detachBehaviorOne [("myBehavior", detachingBehavior)] "myBehavior" none =
      { routineInvoked := false,
        thrown := some "TypeError: this.detach is not a function" } ∧
    detachBehaviorOne [("other", nonDetachingBehavior)] "other" none =
      { routineInvoked := false, thrown := none } :=
  ⟨rfl, rfl⟩

/-- C7 counterexample: the claim says the built-in default is debug false, so a
behavior that does not pre-declare debug ends up with debug false.  On the code
the default written first is debug true, and the minimal opted-in behavior ends
its preprocessing with a truthy debug setting. -/
theorem debug_defaults_true :
    jlookupKey (preprocessBehavior emptyDom plainBehavior emptySettings []).1.settings
      "debug" = JVal.jbool true ∧
    jTruthy (jlookupKey
      (preprocessBehavior emptyDom plainBehavior emptySettings []).1.settings
      "debug") = true :=
  ⟨rfl, rfl⟩

/-- C3 counterexample: the claim says a failure thrown from within the attach
callback itself always propagates out unchanged.  The walker classifies caught
errors only by their string prefix, so an attach callback that throws a string
starting with the preprocessor tag is swallowed: here attach was invoked, its
fixture throws such a string, and nothing propagates. -/
theorem attach_tagged_throw_swallowed :
    taggedThrowBehavior.attach
      = some (some "[PREPROCESS] fake failure thrown by attach") ∧
    (attachStep emptyDom taggedThrowBehavior "myBehavior" emptySettings).invoked
      = true ∧
    (attachStep emptyDom taggedThrowBehavior "myBehavior" emptySettings).thrown
      = none :=
  ⟨rfl, rfl, rfl⟩

/-- C4 counterexample: the claim says an element requirement without a context
name runs its selector against the AttachContext of the cycle.  Here the
AttachContext contains no match for the login selector while the document does;
the code resolves the element document-wide, stores the document match and
invokes attach, where a context-scoped lookup would have found zero matches for
a required element and skipped the behavior. -/
theorem required_element_found_outside_context :
    loginDom.contextQuery "#user-login-form" = [] ∧
    lookupProp
      (attachStep loginDom loginBehavior "loginForm" emptySettings).state.props
      "$loginForm" = some [1] ∧
    (attachStep loginDom loginBehavior "loginForm" emptySettings).invoked = true :=
  ⟨rfl, rfl, rfl⟩

/-- C8 counterexample: the claim says the single-behavior attach errors when no
behavior is registered under the name or the entry is not invokable.  The code
has no error path at all there: both calls below complete silently with no
behavior attached and nothing raised. -/
theorem attach_one_silent_when_unknown :
    attachBehaviorOne emptyDom [] "myBehavior" emptySettings = none ∧
    attachBehaviorOne emptyDom [("myBehavior", noAttachBehavior)] "myBehavior"
      emptySettings = none :=
  ⟨rfl, rfl⟩

/-- C1: for every behavior that opted into preprocessing (its settings path
being a dotted string or absent, per the data model) and declares a required
element whose selector matches nothing, preprocessing throws the tagged failure
naming the missing element, the attach callback is never invoked for the cycle,
no error propagates out of the walk, and the remaining behaviors of the
registry are processed exactly as they would be on their own. -/
theorem required_element_missing_skips_attach (dom : Dom) (b : Behavior)
    (name : String) (rest : List (String × Behavior)) (amb : JVal)
    (hpre : b.preprocess = true)
    (hatt : b.attach.isSome = true)
    (hds : typeofJ b.drupalSettings ≠ "object")
    (hel : ∃ el ∈ b.elements, el.required.getD false = true ∧
        selectorMatchesNothing dom el.selector) :
    (∃ el ∈ b.elements, el.required.getD false = true ∧
        (preprocessBehavior dom b amb []).2 =
          some (requiredElementMsg ("$" ++ el.name))) ∧
    (attachStep dom b name amb).invoked = false ∧
    (attachStep dom b name amb).thrown = none ∧
    attachAll dom ((name, b) :: rest) amb =
      ((name, attachStep dom b name amb) :: (attachAll dom rest amb).1,
       (attachAll dom rest amb).2) := by
  obtain ⟨el, hmem, hreq, hmsg⟩ :=
    processElements_required_missing dom b.elements [] hel
  have hp2 : (preprocessBehavior dom b amb []).2 =
      some (requiredElementMsg ("$" ++ el.name)) := by
    rw [preprocessBehavior_not_object dom b amb [] hds]
    exact hmsg
  have hstep := attachStep_preprocess_err dom b name amb
    (requiredElementMsg ("$" ++ el.name)) hpre hp2
  have hout := attachOutcomeFor_tagged name (preprocessBehavior dom b amb []).1
    false (requiredElementMsg ("$" ++ el.name))
    (isPreprocessErr_required ("$" ++ el.name))
  have hinv : (attachStep dom b name amb).invoked = false := by
    rw [hstep]; exact hout.1
  have hth : (attachStep dom b name amb).thrown = none := by
    rw [hstep]; exact hout.2
  exact ⟨⟨el, hmem, hreq, hp2⟩, hinv, hth,
    attachAll_cons_ok dom name b rest amb hatt hth⟩

/-- C1 witness: the login-form scenario — one required element, an empty DOM,
and a subsequent registry; every hypothesis of the theorem is discharged at
this concrete input. -/
theorem required_element_missing_skips_attach_witness :
    (∃ el ∈ loginBehavior.elements, el.required.getD false = true ∧
        (preprocessBehavior emptyDom loginBehavior emptySettings []).2 =
          some (requiredElementMsg ("$" ++ el.name))) ∧
    (attachStep emptyDom loginBehavior "loginForm" emptySettings).invoked = false ∧
    (attachStep emptyDom loginBehavior "loginForm" emptySettings).thrown = none ∧
    attachAll emptyDom [("loginForm", loginBehavior), ("other", plainBehavior)]
        emptySettings =
      (("loginForm", attachStep emptyDom loginBehavior "loginForm" emptySettings)
          :: (attachAll emptyDom [("other", plainBehavior)] emptySettings).1,
       (attachAll emptyDom [("other", plainBehavior)] emptySettings).2) :=
  required_element_missing_skips_attach emptyDom loginBehavior "loginForm"
    [("other", plainBehavior)] emptySettings rfl rfl (by decide)
    ⟨⟨"loginForm", "#user-login-form", some true, none⟩,
      List.mem_cons_self _ _, rfl, rfl, fun _ => rfl⟩

/-- C3 amended: a failure thrown from within the attach callback propagates to
the caller unchanged unless its string form starts with the preprocessor tag;
the walker classifies caught errors by that string prefix alone, so an
attach-thrown string carrying the tag is swallowed like a preprocessing
failure (see the counterexample). -/
theorem attach_error_propagates_unless_tagged (dom : Dom) (b : Behavior)
    (name : String) (amb : JVal) (e : String)
    (hpre : b.preprocess = true)
    (hok : (preprocessBehavior dom b amb []).2 = none)
    (hat : b.attach = some (some e))
    (hne : isPreprocessErr e = false) :
    (attachStep dom b name amb).invoked = true ∧
    (attachStep dom b name amb).thrown = some e := by
  rw [attachStep_ok_attach_throws dom b name amb e hpre hok hat]
  exact attachOutcomeFor_untagged name _ true e hne

/-- C3 witness: a behavior whose attach callback throws an ordinary error
string; the error comes back out of the walker step unchanged. -/
theorem attach_error_propagates_witness :
    (attachStep emptyDom plainThrowBehavior "myBehavior" emptySettings).invoked
      = true ∧
    (attachStep emptyDom plainThrowBehavior "myBehavior" emptySettings).thrown
      = some "Error: attach blew up" :=
  attach_error_propagates_unless_tagged emptyDom plainThrowBehavior "myBehavior"
    emptySettings "Error: attach blew up" rfl rfl rfl rfl

/-- C6: a dotted-string settings path that fails to resolve is not an error:
preprocessing reports nothing, the resolved settings are exactly the default
extended with the pre-declared settings, and the attach callback is still
invoked.  (On this code the outcome holds for every dotted-string path, because
the merge branch requires an object-typed drupalSettings and is skipped.) -/
theorem missing_settings_path_not_error (dom : Dom) (b : Behavior)
    (name : String) (amb : JVal) (p : String)
    (hpre : b.preprocess = true)
    (hds : b.drupalSettings = JVal.jstr p)
    (hnf : getChainedValue amb (JVal.jstr p) = .ok (JVal.jbool false))
    (hat : b.attach = some none)
    (helem : (processElements dom [] b.elements).2 = none) :
    (preprocessBehavior dom b amb []).2 = none ∧
    (preprocessBehavior dom b amb []).1.settings =
      jExtend [("debug", JVal.jbool true)] (b.settings.getD []) ∧
    (attachStep dom b name amb).invoked = true ∧
    (attachStep dom b name amb).thrown = none := by
  have hds' : typeofJ b.drupalSettings ≠ "object" := by
    rw [hds]
    intro h
    exact (by decide : ¬(("string" : String) = "object")) h
  have hpp := preprocessBehavior_not_object dom b amb [] hds'
  have hok : (preprocessBehavior dom b amb []).2 = none := by
    rw [hpp]; exact helem
  have hset : (preprocessBehavior dom b amb []).1.settings =
      jExtend [("debug", JVal.jbool true)] (b.settings.getD []) := by
    rw [hpp]; rfl
  have hstep := attachStep_ok_attach_returns dom b name amb hpre hok hat
  refine ⟨hok, hset, ?_, ?_⟩
  · rw [hstep]
  · rw [hstep]

/-- C6 witness: the scenario of the spec — the path a.b.z does not resolve in
the deep settings tree (the walk yields the false sentinel), and the behavior
still attaches with only the default settings. -/
theorem missing_settings_path_not_error_witness :
    (preprocessBehavior emptyDom notFoundPathBehavior deepSettings []).2 = none ∧
    (preprocessBehavior emptyDom notFoundPathBehavior deepSettings []).1.settings =
      jExtend [("debug", JVal.jbool true)] (notFoundPathBehavior.settings.getD []) ∧
    (attachStep emptyDom notFoundPathBehavior "myBehavior" deepSettings).invoked
      = true ∧
    (attachStep emptyDom notFoundPathBehavior "myBehavior" deepSettings).thrown
      = none :=
  missing_settings_path_not_error emptyDom notFoundPathBehavior "myBehavior"
    deepSettings "a.b.z" rfl rfl rfl rfl rfl

/-- C7 amended: for every opted-in behavior whose settings path is not
object-typed (the documented string-or-absent shape), the resolved settings are
built onto a fresh object as the built-in default debug true extended by the
pre-declared settings, last writer wins: a behavior that does not pre-declare
debug ends up with debug true (not false as claimed), and every pre-declared
setting survives the merge; values from a string settings path never
contribute, the merge branch requiring an object-typed drupalSettings. -/
theorem settings_precedence_default_declared (dom : Dom) (b : Behavior)
    (amb : JVal) (props0 : List (String × List Nat))
    (hds : typeofJ b.drupalSettings ≠ "object") :
    (preprocessBehavior dom b amb props0).1.settings =
      jExtend [("debug", JVal.jbool true)] (b.settings.getD []) ∧
    ("debug" ∉ (b.settings.getD []).map Prod.fst →
      jlookupKey (preprocessBehavior dom b amb props0).1.settings "debug" =
        JVal.jbool true) ∧
    (((b.settings.getD []).map Prod.fst).Nodup →
      ∀ k, isUndefined (jlookupKey (b.settings.getD []) k) = false →
        jlookupKey (preprocessBehavior dom b amb props0).1.settings k =
          jlookupKey (b.settings.getD []) k) := by
  have hset : (preprocessBehavior dom b amb props0).1.settings =
      jExtend [("debug", JVal.jbool true)] (b.settings.getD []) := by
    rw [preprocessBehavior_not_object dom b amb props0 hds]; rfl
  refine ⟨hset, ?_, ?_⟩
  · intro hnm
    rw [hset, jlookupKey_jExtend_not_mem _ _ _ hnm]
    rfl
  · intro hnd k hk
    rw [hset]
    exact jlookupKey_jExtend_mem _ _ _ hnd hk

/-- C7 witness: a behavior pre-declaring the single setting color red and no
debug; its resolved settings keep color red and gain debug true. -/
theorem settings_precedence_witness :
    (preprocessBehavior emptyDom declaredSettingsBehavior emptySettings []).1.settings =
      jExtend [("debug", JVal.jbool true)]
        (declaredSettingsBehavior.settings.getD []) ∧
    jlookupKey
      (preprocessBehavior emptyDom declaredSettingsBehavior emptySettings []).1.settings
      "debug" = JVal.jbool true ∧
    jlookupKey
      (preprocessBehavior emptyDom declaredSettingsBehavior emptySettings []).1.settings
      "color" = JVal.jstr "red" := by
  refine ⟨(settings_precedence_default_declared emptyDom declaredSettingsBehavior
      emptySettings [] (by decide)).1,
    (settings_precedence_default_declared emptyDom declaredSettingsBehavior
      emptySettings [] (by decide)).2.1 (by decide), ?_⟩
  have h := (settings_precedence_default_declared emptyDom declaredSettingsBehavior
      emptySettings [] (by decide)).2.2 (by decide) "color" rfl
  rw [h]
  rfl

/-- C8 amended: the single-behavior attach is a silent no-op when no behavior
is registered under the name or the registered entry has no attach function
(the claim said it errors); otherwise it performs exactly the per-behavior step
of the full walk. -/
theorem attach_one_noop_or_attaches (dom : Dom)
    (registry : List (String × Behavior)) (name : String) (amb : JVal) :
    (lookupBehavior registry name = none →
        attachBehaviorOne dom registry name amb = none) ∧
    (∀ b, lookupBehavior registry name = some b → b.attach = none →
        attachBehaviorOne dom registry name amb = none) ∧
    (∀ b, lookupBehavior registry name = some b → b.attach.isSome = true →
        attachBehaviorOne dom registry name amb =
          some (attachStep dom b name amb) ∧
        (attachAll dom [(name, b)] amb).1 =
          [(name, attachStep dom b name amb)]) := by
  refine ⟨?_, ?_, ?_⟩
  · intro h
    unfold attachBehaviorOne
    rw [h]
  · intro b hb ha
    unfold attachBehaviorOne
    rw [hb]
    have : b.attach.isSome = false := by rw [ha]; rfl
    dsimp only
    rw [if_neg (by rw [this]; exact Bool.false_ne_true)]
  · intro b hb ha
    constructor
    · unfold attachBehaviorOne
      rw [hb]
      dsimp only
      rw [if_pos ha]
    · conv_lhs => rw [attachAll]
      rw [if_pos ha]
      cases hth : (attachStep dom b name amb).thrown <;> rfl

/-- C8 witness: with one well-formed behavior registered, looking it up
attaches it exactly as the walk would; an unregistered name is a no-op. -/
theorem attach_one_noop_or_attaches_witness :
    attachBehaviorOne emptyDom [("myBehavior", plainBehavior)] "myBehavior"
        emptySettings =
      some (attachStep emptyDom plainBehavior "myBehavior" emptySettings) ∧
    (attachAll emptyDom [("myBehavior", plainBehavior)] emptySettings).1 =
      [("myBehavior", attachStep emptyDom plainBehavior "myBehavior" emptySettings)] ∧
    attachBehaviorOne emptyDom [("myBehavior", plainBehavior)] "other"
        emptySettings = none := by
  refine ⟨((attach_one_noop_or_attaches emptyDom [("myBehavior", plainBehavior)]
      "myBehavior" emptySettings).2.2 plainBehavior rfl rfl).1,
    ((attach_one_noop_or_attaches emptyDom [("myBehavior", plainBehavior)]
      "myBehavior" emptySettings).2.2 plainBehavior rfl rfl).2,
    (attach_one_noop_or_attaches emptyDom [("myBehavior", plainBehavior)]
      "other" emptySettings).1 rfl⟩

theorem dollar_names_inj {x y : String} (h : ("$" ++ x) = ("$" ++ y)) : x = y := by
  obtain ⟨xs⟩ := x
  obtain ⟨ys⟩ := y
  have hd : ('$' :: xs) = ('$' :: ys) := congrArg String.data h
  exact congrArg String.mk (List.cons.inj hd).2

/-- C4 amended: element lookup never consults the AttachContext of the cycle —
two DOMs agreeing on the document-wide and element-scoped queries give
identical preprocessing results however their context-scoped results differ;
when a context name refers to an element resolved earlier in the same behavior,
the selector runs against that element result set; and a forward reference to
a not-yet-resolved element is not rejected as a configuration error — the
lookup silently falls back to a document-wide query. -/
theorem element_lookup_document_scoped (dom : Dom) (amb : JVal) :
    (∀ (domAlt : Dom) (b : Behavior) (props0 : List (String × List Nat)),
        domAlt.query = dom.query → domAlt.queryScoped = dom.queryScoped →
        preprocessBehavior domAlt b amb props0 =
          preprocessBehavior dom b amb props0) ∧
    (∀ na sa nb sb : String, na ≠ "" → na ≠ nb → dom.query sa ≠ [] →
        lookupProp
            (preprocessBehavior dom (scopedPairBehavior na sa nb sb) amb []).1.props
            ("$" ++ na) = some (dom.query sa) ∧
        lookupProp
            (preprocessBehavior dom (scopedPairBehavior na sa nb sb) amb []).1.props
            ("$" ++ nb) = some (dom.queryScoped sb (dom.query sa)) ∧
        (preprocessBehavior dom (scopedPairBehavior na sa nb sb) amb []).2 = none) ∧
    (∀ nx sx nc : String, nc ≠ "" →
        (preprocessBehavior dom (forwardRefBehavior nx sx nc) amb []).2 = none ∧
        lookupProp
            (preprocessBehavior dom (forwardRefBehavior nx sx nc) amb []).1.props
            ("$" ++ nx) = some (dom.query sx)) := by
  refine ⟨fun domAlt b props0 hq hs =>
    preprocessBehavior_ctxfree dom domAlt hq hs b amb props0, ?_, ?_⟩
  · intro na sa nb sb hna hnanb hsa
    have hds : typeofJ (scopedPairBehavior na sa nb sb).drupalSettings ≠ "object" := by
      intro h
      exact (by decide : ¬(("undefined" : String) = "object")) h
    have hpp := preprocessBehavior_not_object dom (scopedPairBehavior na sa nb sb)
      amb [] hds
    have helms : (scopedPairBehavior na sa nb sb).elements =
        [⟨na, sa, some true, none⟩, ⟨nb, sb, some false, some na⟩] := rfl
    have hres : processElements dom []
        [(⟨na, sa, some true, none⟩ : ElementDef), ⟨nb, sb, some false, some na⟩] =
        (setProp (setProp [] ("$" ++ na) (dom.query sa)) ("$" ++ nb)
          (dom.queryScoped sb (dom.query sa)), none) := by
      rw [processElements]
      dsimp only [elementMatches, Option.getD]
      rw [if_neg (fun hh => hsa (List.length_eq_zero.mp hh.2))]
      rw [processElements]
      dsimp only [elementMatches, Option.getD]
      rw [if_pos hna, setProp_lookup, if_pos rfl]
      dsimp only
      rw [if_neg (fun hh => absurd hh.1 Bool.false_ne_true)]
      rfl
    have hne2 : ("$" ++ na) ≠ ("$" ++ nb) :=
      fun hcontra => hnanb (dollar_names_inj hcontra)
    refine ⟨?_, ?_, ?_⟩
    · rw [hpp]
      dsimp only
      rw [helms, hres]
      dsimp only
      rw [setProp_lookup, if_neg hne2, setProp_lookup, if_pos rfl]
    · rw [hpp]
      dsimp only
      rw [helms, hres]
      dsimp only
      rw [setProp_lookup, if_pos rfl]
    · rw [hpp]
      dsimp only
      rw [helms, hres]
  · intro nx sx nc hnc
    have hds : typeofJ (forwardRefBehavior nx sx nc).drupalSettings ≠ "object" := by
      intro h
      exact (by decide : ¬(("undefined" : String) = "object")) h
    have hpp := preprocessBehavior_not_object dom (forwardRefBehavior nx sx nc)
      amb [] hds
    have helms : (forwardRefBehavior nx sx nc).elements =
        [⟨nx, sx, some false, some nc⟩] := rfl
    have hres : processElements dom [] [(⟨nx, sx, some false, some nc⟩ : ElementDef)] =
        (setProp [] ("$" ++ nx) (dom.query sx), none) := by
      rw [processElements]
      dsimp only [elementMatches, Option.getD]
      rw [if_pos hnc]
      dsimp only [lookupProp, List.lookup]
      rw [if_neg (fun hh => absurd hh.1 Bool.false_ne_true)]
      rfl
    refine ⟨?_, ?_⟩
    · rw [hpp]
      dsimp only
      rw [helms, hres]
    · rw [hpp]
      dsimp only
      rw [helms, hres]
      dsimp only
      rw [setProp_lookup, if_pos rfl]

/-- C4 witness: on the login DOM, a forward reference silently resolves
document-wide with no error, and a backward reference resolves inside the
earlier element result set; all hypotheses are discharged at these concrete
names and selectors. -/
theorem element_lookup_document_scoped_witness :
    (preprocessBehavior loginDom (forwardRefBehavior "x" "#y" "ctx")
        emptySettings []).2 = none ∧
    lookupProp (preprocessBehavior loginDom (forwardRefBehavior "x" "#y" "ctx")
        emptySettings []).1.props ("$" ++ "x") = some (loginDom.query "#y") ∧
    lookupProp (preprocessBehavior loginDom
        (scopedPairBehavior "a" "#user-login-form" "b" "#x")
        emptySettings []).1.props ("$" ++ "b") =
      some (loginDom.queryScoped "#x" (loginDom.query "#user-login-form")) :=
  ⟨((element_lookup_document_scoped loginDom emptySettings).2.2 "x" "#y" "ctx"
      (by decide)).1,
   ((element_lookup_document_scoped loginDom emptySettings).2.2 "x" "#y" "ctx"
      (by decide)).2,
   ((element_lookup_document_scoped loginDom emptySettings).2.1 "a"
      "#user-login-form" "b" "#x" (by decide) (by decide) (by decide)).2.1⟩

end DrupalPreprocess
